import Mathlib

/-!
Verification of the real-time audio streaming and session-state pipeline of the
tutor-voz client (src/App.tsx, src/constants.ts).

The embedding models JS strings as lists of characters, byte arrays as lists of
naturals below 256, audio-clock times and sample values as rationals, and the
React component's mutable refs and state hooks as one explicit record of fields
threaded through the handlers.  A thrown JS exception is modelled as the error
branch of an Except value.
-/

/- ## PCM codec: base64 transport encoding (src/App.tsx lines 8-25)

The source builds a binary string whose character codes are the bytes and
applies the browser's btoa, resp. applies atob and reads the character codes
back.  We model the binary string directly by its list of codes, and btoa/atob
as standard base64 over those codes (atob is only modelled on well-formed
base64 text, which is all the source ever feeds it). -/

def b64chars : List Char :=
  ("ABCDEFGHIJKLMNOPQRSTUVWXYZabcdefghijklmnopqrstuvwxyz0123456789+/").toList

/-- Character of the base64 alphabet at a 6-bit index. -/
def b64enc (n : Nat) : Char := b64chars.getD n 'A'

/-- Index of a character in the base64 alphabet, as atob's reverse lookup. -/
def b64dec (c : Char) : Nat := b64chars.indexOf c

/-- Browser btoa on a binary string with the given character codes. -/
def btoa : List Nat → List Char
  | [] => []
  | [a] => [b64enc (a / 4), b64enc (a % 4 * 16), '=', '=']
  | [a, b] => [b64enc (a / 4), b64enc (a % 4 * 16 + b / 16), b64enc (b % 16 * 4), '=']
  | a :: b :: c :: rest =>
    b64enc (a / 4) :: b64enc (a % 4 * 16 + b / 16) :: b64enc (b % 16 * 4 + c / 64) ::
      b64enc (c % 64) :: btoa rest

/-- Browser atob on well-formed base64 text, yielding the character codes of the
binary string. -/
def atob : List Char → List Nat
  | c1 :: c2 :: c3 :: c4 :: rest =>
    if c3 = '=' then [b64dec c1 * 4 + b64dec c2 / 16]
    else if c4 = '=' then
      [b64dec c1 * 4 + b64dec c2 / 16, b64dec c2 % 16 * 16 + b64dec c3 / 4]
    else
      (b64dec c1 * 4 + b64dec c2 / 16) :: (b64dec c2 % 16 * 16 + b64dec c3 / 4) ::
        (b64dec c3 % 4 * 64 + b64dec c4) :: atob rest
  | _ => []

/-- App.tsx lines 18-25: encode builds the binary string from the bytes (its
character codes are exactly the byte values, each below 256) and returns btoa
of it. -/
def encode (bytes : List Nat) : List Char := btoa bytes

/-- App.tsx lines 8-16: decode applies atob and stores each character code into
a Uint8Array, which truncates modulo 256. -/
def decode (base64 : List Char) : List Nat := (atob base64).map (fun c => c % 256)

theorem b64_dec_enc : ∀ n < 64, b64dec (b64enc n) = n := by decide

theorem b64_enc_ne_pad : ∀ n < 64, b64enc n ≠ '=' := by decide

theorem atob_btoa : ∀ bs : List Nat, (∀ b ∈ bs, b < 256) → atob (btoa bs) = bs := by
  intro bs
  induction bs using btoa.induct with
  | case1 =>
    intro _
    rfl
  | case2 a =>
    intro h
    have ha : a < 256 := h a (by simp)
    have e1 : b64dec (b64enc (a / 4)) = a / 4 := b64_dec_enc _ (by omega)
    have e2 : b64dec (b64enc (a % 4 * 16)) = a % 4 * 16 := b64_dec_enc _ (by omega)
    simp [btoa, atob, e1, e2]
    omega
  | case3 a b =>
    intro h
    have ha : a < 256 := h a (by simp)
    have hb : b < 256 := h b (by simp)
    have e1 : b64dec (b64enc (a / 4)) = a / 4 := b64_dec_enc _ (by omega)
    have e2 : b64dec (b64enc (a % 4 * 16 + b / 16)) = a % 4 * 16 + b / 16 :=
      b64_dec_enc _ (by omega)
    have e3 : b64dec (b64enc (b % 16 * 4)) = b % 16 * 4 := b64_dec_enc _ (by omega)
    simp only [btoa, atob]
    rw [if_neg (b64_enc_ne_pad (b % 16 * 4) (by omega))]
    simp [e1, e2, e3]
    omega
  | case4 a b c rest ih =>
    intro h
    have ha : a < 256 := h a (by simp)
    have hb : b < 256 := h b (by simp)
    have hc : c < 256 := h c (by simp)
    have e1 : b64dec (b64enc (a / 4)) = a / 4 := b64_dec_enc _ (by omega)
    have e2 : b64dec (b64enc (a % 4 * 16 + b / 16)) = a % 4 * 16 + b / 16 :=
      b64_dec_enc _ (by omega)
    have e3 : b64dec (b64enc (b % 16 * 4 + c / 64)) = b % 16 * 4 + c / 64 :=
      b64_dec_enc _ (by omega)
    have e4 : b64dec (b64enc (c % 64)) = c % 64 := b64_dec_enc _ (by omega)
    have hrest : ∀ x ∈ rest, x < 256 := fun x hx => h x (by simp [hx])
    simp only [btoa, atob]
    rw [if_neg (b64_enc_ne_pad (b % 16 * 4 + c / 64) (by omega)),
      if_neg (b64_enc_ne_pad (c % 64) (by omega))]
    rw [e1, e2, e3, e4, ih hrest]
    simp [List.cons.injEq]
    omega

/-- C5: for every byte sequence (each byte in 0-255, any length), decoding the
transport text encoding returns the bytes exactly:
decode (encode bs) = bs. -/
theorem C5_codec_roundtrip (bs : List Nat) (h : ∀ b ∈ bs, b < 256) :
    decode (encode bs) = bs := by
  unfold decode encode
  rw [atob_btoa bs h]
  exact List.map_congr_left (fun b hb => Nat.mod_eq_of_lt (h b hb)) |>.trans (List.map_id bs)

/-- C5 witness: the round-trip evaluated on the concrete byte list
[0, 255, 128, 1, 77]. -/
theorem C5_codec_roundtrip_witness :
    (∀ b ∈ [0, 255, 128, 1, 77], b < 256) ∧ decode (encode [0, 255, 128, 1, 77]) = [0, 255, 128, 1, 77] :=
  ⟨by decide, C5_codec_roundtrip [0, 255, 128, 1, 77] (by decide)⟩

/- ## PCM codec: float/int16 sample conversion (src/App.tsx lines 27-56)

createBlob stores data[i] * 32768 into an Int16Array: per ECMAScript ToInt16
the number is truncated toward zero and wrapped into [-32768, 32767].
decodeAudioData divides each int16 sample by 32768.0.  Samples are modelled as
rationals: every operation involved (scaling by a power of two, truncation,
division by a power of two) is exact in binary floating point in this range, so
the rational model computes the very same values the JS code does.  The byte
(de)serialization sitting between the two loops is the identity on int16
values and is not modelled. -/

/-- ECMAScript truncation toward zero. -/
def jsTrunc (q : ℚ) : ℤ := if 0 ≤ q then ⌊q⌋ else ⌈q⌉

/-- ECMAScript ToInt16 wrap of an integer into [-32768, 32767]. -/
def toInt16Wrap (n : ℤ) : ℤ :=
  if 32768 ≤ n % 65536 then n % 65536 - 65536 else n % 65536

/-- App.tsx line 50: the value stored by int16[i] = data[i] * 32768. -/
def storeInt16 (q : ℚ) : ℤ := toInt16Wrap (jsTrunc (q * 32768))

/-- App.tsx lines 49-51: the int16 sample loop of createBlob. -/
def createBlobSamples (data : List ℚ) : List ℤ := data.map storeInt16

/-- App.tsx line 40: the float sample produced from an int16 sample. -/
def channelFloat (n : ℤ) : ℚ := (n : ℚ) / 32768

/-- App.tsx lines 37-42: the float sample loop of decodeAudioData (mono). -/
def decodeAudioSamples (ns : List ℤ) : List ℚ := ns.map channelFloat

theorem storeInt16_one : storeInt16 1 = -32768 := by
  have h1 : jsTrunc ((1 : ℚ) * 32768) = 32768 := by
    rw [jsTrunc, if_pos (by norm_num)]
    rw [show ((1 : ℚ) * 32768) = ((32768 : ℤ) : ℚ) by norm_num, Int.floor_intCast]
  rw [storeInt16, h1, toInt16Wrap]
  norm_num

/-- C6 counterexample: at the in-range sample s = 1 the stored int16 wraps to
-32768, comes back as -1, and the round-trip error is 2, far above 1/32768. -/
theorem C6_pcm_counterexample :
    ¬ |(decodeAudioSamples (createBlobSamples [1])).getD 0 0 - 1| ≤ 1 / 32768 := by
  have : decodeAudioSamples (createBlobSamples [1]) = [-1] := by
    simp only [createBlobSamples, decodeAudioSamples, List.map, storeInt16_one, channelFloat]
    norm_num
  rw [this]
  norm_num

theorem jsTrunc_bounds (q : ℚ) : q - 1 ≤ (jsTrunc q : ℚ) ∧ (jsTrunc q : ℚ) ≤ q + 1 := by
  rw [jsTrunc]
  split_ifs with h
  · constructor
    · have := Int.lt_floor_add_one q
      push_cast at this ⊢
      linarith
    · have := Int.floor_le q
      push_cast at this ⊢
      linarith
  · constructor
    · have := Int.le_ceil q
      push_cast at this ⊢
      linarith
    · have := Int.ceil_lt_add_one q
      push_cast at this ⊢
      linarith

theorem jsTrunc_int_bounds (q : ℚ) (h1 : -32768 ≤ q) (h2 : q < 32768) :
    -32768 ≤ jsTrunc q ∧ jsTrunc q ≤ 32767 := by
  rw [jsTrunc]
  split_ifs with h
  · constructor
    · exact Int.le_floor.mpr (by push_cast; linarith)
    · have : ⌊q⌋ < 32768 := Int.floor_lt.mpr (by push_cast; linarith)
      omega
  · constructor
    · have hc : (⌈((-32768 : ℤ) : ℚ)⌉ : ℤ) ≤ ⌈q⌉ := Int.ceil_le_ceil (by push_cast; linarith)
      rw [Int.ceil_intCast] at hc
      exact hc
    · have : ⌈q⌉ ≤ 0 := Int.ceil_le.mpr (by push_cast; linarith)
      omega

/-- C6 amended: for every sample s with -1 ≤ s < 1 (s = 1 excluded, since there
the int16 store wraps), converting to int16 and back to float stays within
1/32768 of s. -/
theorem C6_pcm_roundtrip_bound (s : ℚ) (h1 : -1 ≤ s) (h2 : s < 1) :
    |(decodeAudioSamples (createBlobSamples [s])).getD 0 0 - s| ≤ 1 / 32768 := by
  have hval : (decodeAudioSamples (createBlobSamples [s])).getD 0 0
      = channelFloat (storeInt16 s) := rfl
  rw [hval]
  have hx1 : -32768 ≤ s * 32768 := by nlinarith
  have hx2 : s * 32768 < 32768 := by nlinarith
  obtain ⟨hi1, hi2⟩ := jsTrunc_int_bounds (s * 32768) hx1 hx2
  have hwrap : storeInt16 s = jsTrunc (s * 32768) := by
    rw [storeInt16, toInt16Wrap]
    split_ifs with h <;> omega
  obtain ⟨ht1, ht2⟩ := jsTrunc_bounds (s * 32768)
  rw [channelFloat, hwrap]
  have heq : (jsTrunc (s * 32768) : ℚ) / 32768 - s
      = ((jsTrunc (s * 32768) : ℚ) - s * 32768) / 32768 := by ring
  have h32 : |(32768 : ℚ)| = 32768 := by norm_num
  rw [heq, abs_div, h32]
  have habs : |(jsTrunc (s * 32768) : ℚ) - s * 32768| ≤ 1 := by
    rw [abs_le]
    constructor <;> linarith
  linarith

/-- C6 witness: the amended bound evaluated at the concrete sample s = 1/2. -/
theorem C6_pcm_roundtrip_bound_witness :
    (-1 ≤ (1/2 : ℚ)) ∧ ((1/2 : ℚ) < 1) ∧
      |(decodeAudioSamples (createBlobSamples [1/2])).getD 0 0 - 1/2| ≤ 1 / 32768 :=
  ⟨by norm_num, by norm_num, C6_pcm_roundtrip_bound (1/2) (by norm_num) (by norm_num)⟩

/- ## Data model of the session component (src/App.tsx lines 66-107, 152-223)

ConnectionState and TranscriptionEntry are imported from src/types.ts, which is
not part of the sources; their shape is fully determined by how App.tsx uses
them.  Modelled from the spec: states Disconnected, Connecting, Connected,
Error (section 4.6), and TranscriptEntry with speaker role, text and creation
time (section 3). -/

inductive ConnectionState where
  | DISCONNECTED
  | CONNECTING
  | CONNECTED
  | ERROR
deriving DecidableEq, Repr

inductive Role where
  | user
  | model
deriving DecidableEq, Repr

structure TranscriptionEntry where
  role : Role
  text : List Char
  timestamp : ℚ
deriving DecidableEq, Repr

/- Shape of an incoming LiveServerMessage, with one Option per field the
handler dereferences via optional chaining.  Text payloads are lists of
characters. -/

structure InlineData where
  data : Option (List Char)
deriving DecidableEq, Repr

structure MsgPart where
  inlineData : Option InlineData
deriving DecidableEq, Repr

structure ModelTurn where
  parts : Option (List MsgPart)
deriving DecidableEq, Repr

structure Transcription where
  text : List Char
deriving DecidableEq, Repr

structure ServerContent where
  modelTurn : Option ModelTurn
  outputTranscription : Option Transcription
  inputTranscription : Option Transcription
  turnComplete : Bool
  interrupted : Bool
deriving DecidableEq, Repr

structure LiveServerMessage where
  serverContent : Option ServerContent
deriving DecidableEq, Repr

/-- Component state: the useState hooks and the mutable refs of App (lines
67-79), plus append-only histories of the externally visible actions the
handlers perform (source.start calls with their start times, forced
source.stop calls, session.send payloads), which stand in for the side
effects on the audio graph and the connection.  Scheduled playback units are
identified by consecutive numbers; activeSourcesRef is a JS Set iterated in
insertion order, modelled as a list. -/
structure AppState where
  connectionState : ConnectionState
  transcriptions : List TranscriptionEntry
  isListening : Bool
  nextStartTime : ℚ
  activeSources : List Nat
  nextSourceId : Nat
  session : Option Unit
  micStream : Option Unit
  currentOutputTranscription : List Char
  currentInputTranscription : List Char
  schedLog : List (Nat × ℚ)
  stopLog : List Nat
  sentMessages : List (List Char)
deriving DecidableEq, Repr

/-- JS String.prototype.trim: whitespace stripped from both ends (the model
uses the ASCII whitespace subset, which is all the claims depend on). -/
def jsTrim (s : List Char) : List Char :=
  ((s.dropWhile Char.isWhitespace).reverse.dropWhile Char.isWhitespace).reverse

/-- App.tsx lines 81-94: stopConversation closes the session if present,
stops and releases the microphone stream if present, force-stops every active
source, clears the active set, and resets the UI state. -/
def stopConversation (s : AppState) : AppState :=
  { s with
    session := none
    micStream := none
    stopLog := s.stopLog ++ s.activeSources
    activeSources := []
    connectionState := ConnectionState.DISCONNECTED
    isListening := false }

/-- App.tsx lines 96-107: sendTextMessage sends and appends a user entry only
when a session handle exists and the state is CONNECTED. -/
def sendTextMessage (now : ℚ) (text : List Char) (s : AppState) : AppState :=
  if s.session.isSome ∧ s.connectionState = ConnectionState.CONNECTED then
    { s with
      sentMessages := s.sentMessages ++ [text]
      transcriptions := s.transcriptions ++ [⟨Role.user, text, now⟩] }
  else s

/-- App.tsx line 154: the optional-chained read
message.serverContent?.modelTurn?.parts[0]?.inlineData?.data.  When modelTurn
is present but parts is absent, the bare index parts[0] throws a TypeError,
modelled as the error branch; every other missing field short-circuits to
undefined. -/
def getAudioData (m : LiveServerMessage) : Except Unit (Option (List Char)) :=
  match m.serverContent with
  | none => Except.ok none
  | some sc =>
    match sc.modelTurn with
    | none => Except.ok none
    | some mt =>
      match mt.parts with
      | none => Except.error ()
      | some ps =>
        match ps.head? with
        | none => Except.ok none
        | some p =>
          match p.inlineData with
          | none => Except.ok none
          | some d => Except.ok d.data

/-- App.tsx lines 33-34 and 159: the duration of the decoded AudioBuffer,
frameCount / sampleRate with frameCount the number of int16 samples (bytes/2,
mono) and sampleRate 24000. -/
def audioDuration (bytes : List Nat) : ℚ := ((bytes.length / 2 : ℕ) : ℚ) / 24000

/-- App.tsx lines 156-171: schedule one decoded chunk.  The cursor is first
clamp-raised to the current output time (line 157), the source is started at
the resulting cursor value (line 169), the cursor advances by the chunk
duration (line 170) and the source joins the active set (line 171). -/
def scheduleAudioChunk (now dur : ℚ) (s : AppState) : AppState :=
  let startAt := max s.nextStartTime now
  { s with
    nextStartTime := startAt + dur
    schedLog := s.schedLog ++ [(s.nextSourceId, startAt)]
    activeSources := s.activeSources ++ [s.nextSourceId]
    nextSourceId := s.nextSourceId + 1 }

/-- App.tsx lines 165-167: a source that finishes naturally removes itself
from the active set. -/
def sourceEnded (srcId : Nat) (s : AppState) : AppState :=
  { s with activeSources := s.activeSources.erase srcId }

/-- App.tsx lines 175-179: transcript fragments; note the else-if, so a
message carrying both kinds only appends the output fragment. -/
def handleFragments (sc : ServerContent) (s : AppState) : AppState :=
  match sc.outputTranscription with
  | some o =>
    { s with currentOutputTranscription := s.currentOutputTranscription ++ o.text }
  | none =>
    match sc.inputTranscription with
    | some i =>
      { s with currentInputTranscription := s.currentInputTranscription ++ i.text }
    | none => s

/-- App.tsx lines 181-194: on turnComplete, trim both buffers, append one
entry per non-empty trimmed buffer (user first, then model), then clear both
buffers. -/
def handleTurnComplete (now : ℚ) (s : AppState) : AppState :=
  let userText := jsTrim s.currentInputTranscription
  let modelText := jsTrim s.currentOutputTranscription
  let s1 :=
    if userText ≠ [] ∨ modelText ≠ [] then
      { s with
        transcriptions := s.transcriptions
          ++ (if userText ≠ [] then [⟨Role.user, userText, now⟩] else [])
          ++ (if modelText ≠ [] then [⟨Role.model, modelText, now⟩] else []) }
    else s
  { s1 with currentInputTranscription := [], currentOutputTranscription := [] }

/-- App.tsx lines 197-201: on interrupted, force-stop every active source,
clear the set and reset the cursor to 0. -/
def handleInterrupt (s : AppState) : AppState :=
  { s with
    stopLog := s.stopLog ++ s.activeSources
    activeSources := []
    nextStartTime := 0 }

/-- App.tsx lines 174-201: the non-audio part of the message handler, in
source order: fragments, then turnComplete, then interrupted. -/
def handleServerContent (now : ℚ) (sc : ServerContent) (s : AppState) : AppState :=
  let s1 := handleFragments sc s
  let s2 := if sc.turnComplete then handleTurnComplete now s1 else s1
  if sc.interrupted then handleInterrupt s2 else s2

/-- App.tsx lines 152-202: the onmessage callback.  now is the output
context's currentTime; a thrown TypeError is the error branch. -/
def onmessage (now : ℚ) (m : LiveServerMessage) (s : AppState) : Except Unit AppState :=
  match getAudioData m with
  | Except.error _ => Except.error ()
  | Except.ok ob =>
    let s1 :=
      match ob with
      | some b64 =>
        if b64 ≠ [] then scheduleAudioChunk now (audioDuration (decode b64)) s else s
      | none => s
    match m.serverContent with
    | none => Except.ok s1
    | some sc => Except.ok (handleServerContent now sc s1)

/-- App.tsx lines 203-207: the onerror callback sets the state to ERROR and
then runs stopConversation. -/
def onerror (s : AppState) : AppState :=
  stopConversation { s with connectionState := ConnectionState.ERROR }

/-- App.tsx lines 208-210: the onclose callback. -/
def onclose (s : AppState) : AppState :=
  { s with connectionState := ConnectionState.DISCONNECTED }

/- ## Playback scheduling traces (claims C1, C2)

A chunk delivery is a pair (t, d): the output clock value t when the handler
runs and the decoded chunk duration d. -/

/-- Iterated chunk scheduling, one scheduleAudioChunk step per delivery. -/
def runChunks (s : AppState) : List (ℚ × ℚ) → AppState
  | [] => s
  | (t, d) :: rest => runChunks (scheduleAudioChunk t d s) rest

/-- Start times produced by a delivery sequence from a given cursor, exactly
as scheduleAudioChunk computes them. -/
def schedStartsFrom (cursor : ℚ) : List (ℚ × ℚ) → List ℚ
  | [] => []
  | (t, d) :: rest => max cursor t :: schedStartsFrom (max cursor t + d) rest

/-- No-underrun condition: every delivery arrives while the output clock is
still at or before the cursor, so playback never catches up between chunks. -/
def arrivesBeforeCursor (cursor : ℚ) : List (ℚ × ℚ) → Prop
  | [] => True
  | (t, d) :: rest => t ≤ cursor ∧ arrivesBeforeCursor (cursor + d) rest

/-- Sum of the durations of the first i deliveries. -/
def durSumBefore (evs : List (ℚ × ℚ)) (i : ℕ) : ℚ := ((evs.take i).map Prod.snd).sum

theorem runChunks_schedLog (evs : List (ℚ × ℚ)) : ∀ s : AppState,
    (runChunks s evs).schedLog.map Prod.snd
      = s.schedLog.map Prod.snd ++ schedStartsFrom s.nextStartTime evs := by
  induction evs with
  | nil => intro s; simp [runChunks, schedStartsFrom]
  | cons p rest ih =>
    intro s
    obtain ⟨t, d⟩ := p
    rw [runChunks, schedStartsFrom, ih (scheduleAudioChunk t d s)]
    simp [scheduleAudioChunk]

theorem schedStartsFrom_arrives (evs : List (ℚ × ℚ)) : ∀ c : ℚ,
    arrivesBeforeCursor c evs →
      schedStartsFrom c evs = (List.range evs.length).map (fun i => c + durSumBefore evs i) := by
  induction evs with
  | nil => intro c _; simp [schedStartsFrom]
  | cons p rest ih =>
    intro c h
    obtain ⟨t, d⟩ := p
    obtain ⟨h1, h2⟩ := h
    rw [schedStartsFrom, max_eq_left h1, ih (c + d) h2]
    rw [List.length_cons, List.range_succ_eq_map, List.map_cons, List.map_map]
    congr 1
    · simp [durSumBefore]
    · apply List.map_congr_left
      intro i _
      simp only [Function.comp_apply, durSumBefore, List.take_succ_cons, List.map_cons,
        List.sum_cons]
      ring

theorem schedStartsFrom_chain (evs : List (ℚ × ℚ)) : ∀ c : ℚ,
    (∀ p ∈ evs, 0 ≤ p.2) → List.Chain' (· ≤ ·) (schedStartsFrom c evs) := by
  induction evs with
  | nil => intro c _; simp [schedStartsFrom]
  | cons p rest ih =>
    intro c h
    obtain ⟨t, d⟩ := p
    rw [schedStartsFrom]
    rw [List.chain'_cons']
    constructor
    · intro y hy
      cases rest with
      | nil => simp [schedStartsFrom] at hy
      | cons q rest2 =>
        obtain ⟨t2, d2⟩ := q
        simp only [schedStartsFrom, List.head?_cons, Option.mem_def, Option.some.injEq] at hy
        have hd : 0 ≤ d := h (t, d) (by simp)
        calc max c t ≤ max c t + d := by linarith
          _ ≤ max (max c t + d) t2 := le_max_left _ _
          _ = y := hy
    · exact ih (max c t + d) (fun q hq => h q (List.mem_cons_of_mem _ hq))

/- ## Concrete fixtures used by witnesses and counterexamples -/

/-- A connected session state with empty histories and buffers, as right after
onopen fires and the session promise resolves. -/
def testState : AppState :=
  { connectionState := ConnectionState.CONNECTED
    transcriptions := []
    isListening := true
    nextStartTime := 0
    activeSources := []
    nextSourceId := 0
    session := some ()
    micStream := some ()
    currentOutputTranscription := []
    currentInputTranscription := []
    schedLog := []
    stopLog := []
    sentMessages := [] }

/-- A message carrying only an audio chunk with the given base64 payload. -/
def mkAudioMsg (b64 : List Char) : LiveServerMessage :=
  ⟨some ⟨some ⟨some [⟨some ⟨some b64⟩⟩]⟩, none, none, false, false⟩⟩

/-- A message carrying only the interrupted flag. -/
def interruptMsg : LiveServerMessage :=
  ⟨some ⟨none, none, none, false, true⟩⟩

/-- A message carrying only the turnComplete flag. -/
def turnCompleteMsg : LiveServerMessage :=
  ⟨some ⟨none, none, none, true, false⟩⟩

/-- A malformed message whose modelTurn is present but has no parts array. -/
def badModelTurnMsg : LiveServerMessage :=
  ⟨some ⟨some ⟨none⟩, none, none, false, false⟩⟩

/-- A message whose audio part is present but misses the data field. -/
def missingDataMsg : LiveServerMessage :=
  ⟨some ⟨some ⟨some [⟨some ⟨none⟩⟩]⟩, none, none, false, false⟩⟩

/-- A message carrying both an output and an input transcript fragment. -/
def bothFragMsg : LiveServerMessage :=
  ⟨some ⟨none, some ⟨['o', 'u', 't']⟩, some ⟨['i', 'n']⟩, false, false⟩⟩

theorem onmessage_audio (now : ℚ) (s : AppState) (b64 : List Char) (hb : b64 ≠ []) :
    onmessage now (mkAudioMsg b64) s
      = Except.ok (scheduleAudioChunk now (audioDuration (decode b64)) s) := by
  simp [onmessage, getAudioData, mkAudioMsg, handleServerContent, handleFragments, hb]

/- ## Claims -/

/-- C1 (amended): in any run of chunk deliveries without an Interrupted event,
each chunk starts at max(cursor, currentOutputTime) and the cursor then
advances by its duration; the recorded start times of the run are exactly
those of schedStartsFrom; and provided no delivery after the first arrives
once the output clock has passed the cursor (no underrun), the i-th start
time equals the first start time plus the durations of the previous chunks,
and the start times are non-decreasing (the original claim asserts the sum
property without the no-underrun hypothesis, which C1_counterexample
refutes). -/
theorem C1_gapless_scheduling (s : AppState) (t1 d1 : ℚ) (evs : List (ℚ × ℚ))
    (hIn : arrivesBeforeCursor (max s.nextStartTime t1 + d1) evs)
    (hDur : ∀ p ∈ (t1, d1) :: evs, 0 ≤ p.2) :
    ((scheduleAudioChunk t1 d1 s).schedLog.map Prod.snd
        = s.schedLog.map Prod.snd ++ [max s.nextStartTime t1]
      ∧ (scheduleAudioChunk t1 d1 s).nextStartTime = max s.nextStartTime t1 + d1)
    ∧ (runChunks s ((t1, d1) :: evs)).schedLog.map Prod.snd
        = s.schedLog.map Prod.snd ++ schedStartsFrom s.nextStartTime ((t1, d1) :: evs)
    ∧ schedStartsFrom s.nextStartTime ((t1, d1) :: evs)
        = (List.range (evs.length + 1)).map
            (fun i => max s.nextStartTime t1 + durSumBefore ((t1, d1) :: evs) i)
    ∧ List.Chain' (· ≤ ·) (schedStartsFrom s.nextStartTime ((t1, d1) :: evs)) := by
  refine ⟨⟨by simp [scheduleAudioChunk], by simp [scheduleAudioChunk]⟩,
    runChunks_schedLog _ s, ?_, schedStartsFrom_chain _ s.nextStartTime hDur⟩
  rw [schedStartsFrom, schedStartsFrom_arrives evs _ hIn]
  rw [List.range_succ_eq_map, List.map_cons, List.map_map]
  congr 1
  · simp [durSumBefore]
  · apply List.map_congr_left
    intro i _
    simp only [Function.comp_apply, durSumBefore, List.take_succ_cons, List.map_cons,
      List.sum_cons]
    ring

/-- C1 witness: the amended claim evaluated on the concrete trace of two
deliveries (time 0, duration 1) and (time 0, duration 2) from testState. -/
theorem C1_gapless_scheduling_witness :
    arrivesBeforeCursor (max testState.nextStartTime 0 + 1) [(0, 2)]
    ∧ (∀ p ∈ [((0 : ℚ), (1 : ℚ)), ((0 : ℚ), (2 : ℚ))], 0 ≤ p.2)
    ∧ schedStartsFrom testState.nextStartTime [(0, 1), (0, 2)]
        = (List.range 2).map
            (fun i => max testState.nextStartTime 0 + durSumBefore [(0, 1), (0, 2)] i)
    ∧ List.Chain' (· ≤ ·) (schedStartsFrom testState.nextStartTime [(0, 1), (0, 2)]) := by
  have hIn : arrivesBeforeCursor (max testState.nextStartTime 0 + 1) [(0, 2)] := by
    norm_num [arrivesBeforeCursor, testState]
  have hDur : ∀ p ∈ [((0 : ℚ), (1 : ℚ)), ((0 : ℚ), (2 : ℚ))], 0 ≤ p.2 := by
    intro p hp
    simp only [List.mem_cons, List.not_mem_nil, or_false] at hp
    rcases hp with h | h <;> subst h <;> norm_num
  exact ⟨hIn, hDur, (C1_gapless_scheduling testState 0 1 [(0, 2)] hIn hDur).2.2.1,
    (C1_gapless_scheduling testState 0 1 [(0, 2)] hIn hDur).2.2.2⟩

/-- C1 counterexample: two audio chunks of 2 bytes (duration 1/24000 s)
handled at output times 0 and 5 with no Interrupted event in between; the
second chunk starts at 5, not at the first start plus the first duration
(0 + 1/24000), refuting the unconditional sum property. -/
theorem C1_counterexample :
    ((onmessage 0 (mkAudioMsg (encode [1, 2])) testState).bind
        (onmessage 5 (mkAudioMsg (encode [1, 2])))).map (fun s2 => s2.schedLog.map Prod.snd)
      = Except.ok [0, 5]
    ∧ (5 : ℚ) ≠ 0 + audioDuration (decode (encode [1, 2])) := by
  have hb : encode [1, 2] ≠ ([] : List Char) := by decide
  have hdec : decode (encode [1, 2]) = [1, 2] := by decide
  have hd : audioDuration (decode (encode [1, 2])) = 1 / 24000 := by
    rw [hdec]
    norm_num [audioDuration]
  constructor
  · rw [onmessage_audio 0 testState _ hb]
    show (onmessage 5 (mkAudioMsg (encode [1, 2]))
        (scheduleAudioChunk 0 (audioDuration (decode (encode [1, 2]))) testState)).map
          (fun s2 => s2.schedLog.map Prod.snd)
      = Except.ok [0, 5]
    rw [onmessage_audio 5 _ _ hb]
    show Except.ok ((scheduleAudioChunk 5 (audioDuration (decode (encode [1, 2])))
        (scheduleAudioChunk 0 (audioDuration (decode (encode [1, 2]))) testState)).schedLog.map
          Prod.snd)
      = Except.ok [0, 5]
    rw [hd]
    simp only [scheduleAudioChunk, testState]
    norm_num
  · rw [hd]
    norm_num

/-- C2: processing an Interrupted event stops every unit of the active set,
clears the set and resets the cursor to 0, and the next chunk scheduled
afterwards starts at the current output time (max of the reset cursor and the
clock), independently of the pre-interruption cursor. -/
theorem C2_interruption_truncation (s : AppState) (t d : ℚ) (ht : 0 ≤ t) :
    (handleInterrupt s).stopLog = s.stopLog ++ s.activeSources
    ∧ (handleInterrupt s).activeSources = []
    ∧ (handleInterrupt s).nextStartTime = 0
    ∧ onmessage t interruptMsg s = Except.ok (handleInterrupt s)
    ∧ (scheduleAudioChunk t d (handleInterrupt s)).schedLog.map Prod.snd
        = s.schedLog.map Prod.snd ++ [t] := by
  refine ⟨rfl, rfl, rfl, rfl, ?_⟩
  simp [scheduleAudioChunk, handleInterrupt, max_eq_right ht]

/-- C2 witness: the interruption claim evaluated at output time 2 and next
chunk duration 3 from testState. -/
theorem C2_interruption_truncation_witness :
    (0 : ℚ) ≤ 2
    ∧ (handleInterrupt testState).activeSources = []
    ∧ (scheduleAudioChunk 2 3 (handleInterrupt testState)).schedLog.map Prod.snd
        = testState.schedLog.map Prod.snd ++ [2] :=
  ⟨by norm_num, (C2_interruption_truncation testState 2 3 (by norm_num)).2.1,
    (C2_interruption_truncation testState 2 3 (by norm_num)).2.2.2.2⟩

/-- C3 (code bug evidence): the onerror callback does perform the full
stop-style cleanup, but its final connection state is DISCONNECTED, not
ERROR — the setConnectionState(ERROR) on line 205 is immediately overwritten
by stopConversation on line 206, so the machine does not remain in the Error
state as the spec requires. -/
theorem C3_onerror_state (s : AppState) :
    (onerror s).connectionState = ConnectionState.DISCONNECTED
    ∧ (onerror s).connectionState ≠ ConnectionState.ERROR
    ∧ (onerror s).session = none
    ∧ (onerror s).micStream = none
    ∧ (onerror s).activeSources = []
    ∧ (onerror s).stopLog = s.stopLog ++ s.activeSources :=
  ⟨rfl, by simp [onerror, stopConversation], rfl, rfl, rfl, rfl⟩

/-- C4: a turnComplete message runs handleTurnComplete; both buffers are
trimmed and one entry is appended per non-empty trimmed buffer, user entry
first and model entry second; both buffers are empty afterwards; and with
both buffers empty no entry is appended. -/
theorem C4_turn_complete (now : ℚ) (s : AppState) :
    onmessage now turnCompleteMsg s = Except.ok (handleTurnComplete now s)
    ∧ (handleTurnComplete now s).transcriptions
        = s.transcriptions
          ++ (if jsTrim s.currentInputTranscription ≠ [] then
                [⟨Role.user, jsTrim s.currentInputTranscription, now⟩] else [])
          ++ (if jsTrim s.currentOutputTranscription ≠ [] then
                [⟨Role.model, jsTrim s.currentOutputTranscription, now⟩] else [])
    ∧ (handleTurnComplete now s).currentInputTranscription = []
    ∧ (handleTurnComplete now s).currentOutputTranscription = []
    ∧ (s.currentInputTranscription = [] → s.currentOutputTranscription = [] →
        (handleTurnComplete now s).transcriptions = s.transcriptions) := by
  refine ⟨rfl, ?_, rfl, rfl, ?_⟩
  · simp only [handleTurnComplete]
    split_ifs with h <;> simp_all
  · intro h1 h2
    simp [handleTurnComplete, h1, h2, jsTrim]

/-- C4 witness: turnComplete on the empty-buffer state appends nothing. -/
theorem C4_turn_complete_witness :
    testState.currentInputTranscription = []
    ∧ testState.currentOutputTranscription = []
    ∧ (handleTurnComplete 0 testState).transcriptions = testState.transcriptions :=
  ⟨rfl, rfl, (C4_turn_complete 0 testState).2.2.2.2 rfl rfl⟩

/-- C7 (code bug evidence): a message whose modelTurn is present but has no
parts array makes the handler throw (the bare parts[0] index on line 154),
contradicting the silently-skip requirement, while a chunk missing only its
data field, or a message with no serverContent at all, is indeed skipped with
the state unchanged. -/
theorem C7_malformed_events (now : ℚ) (s : AppState) :
    onmessage now badModelTurnMsg s = Except.error ()
    ∧ onmessage now missingDataMsg s = Except.ok s
    ∧ onmessage now (LiveServerMessage.mk none) s = Except.ok s :=
  ⟨rfl, rfl, rfl⟩

/-- C8 counterexample: a single message carrying both an output fragment
(out) and an input fragment (in), processed from testState: the output buffer
receives its fragment but the input buffer stays empty, because the source
tests the two fields with else-if, refuting the both-buffers-appended claim. -/
theorem C8_counterexample :
    (onmessage 0 bothFragMsg testState).map
        (fun s2 => (s2.currentInputTranscription, s2.currentOutputTranscription))
      = Except.ok ([], ['o', 'u', 't'])
    ∧ (['i', 'n'] : List Char) ≠ [] :=
  ⟨rfl, by decide⟩

/-- C8 (amended): a message with an output fragment appends it to the output
buffer (leaving the input buffer untouched even if the same message also
carries an input fragment), and a message with an input fragment and no
output fragment appends it to the input buffer. -/
theorem C8_fragment_handling (s : AppState) (sc : ServerContent) :
    (∀ o, sc.outputTranscription = some o →
        (handleFragments sc s).currentOutputTranscription
            = s.currentOutputTranscription ++ o.text
        ∧ (handleFragments sc s).currentInputTranscription = s.currentInputTranscription)
    ∧ (∀ i, sc.outputTranscription = none → sc.inputTranscription = some i →
        (handleFragments sc s).currentInputTranscription
            = s.currentInputTranscription ++ i.text
        ∧ (handleFragments sc s).currentOutputTranscription
            = s.currentOutputTranscription) := by
  constructor
  · intro o ho
    simp [handleFragments, ho]
  · intro i ho hi
    simp [handleFragments, ho, hi]

/-- The server content of bothFragMsg. -/
def bothFragContent : ServerContent :=
  ⟨none, some ⟨['o', 'u', 't']⟩, some ⟨['i', 'n']⟩, false, false⟩

/-- C8 witness: the amended claim evaluated on a message carrying both
fragments, from testState. -/
theorem C8_fragment_handling_witness :
    bothFragContent.outputTranscription = some ⟨['o', 'u', 't']⟩
    ∧ ((handleFragments bothFragContent testState).currentOutputTranscription
          = testState.currentOutputTranscription ++ ['o', 'u', 't']
      ∧ (handleFragments bothFragContent testState).currentInputTranscription
          = testState.currentInputTranscription) :=
  ⟨rfl, (C8_fragment_handling testState bothFragContent).1 ⟨['o', 'u', 't']⟩ rfl⟩

/-- C9: stopConversation is idempotent on the component state and always
leaves the session closed and null, the microphone released, the active
playback set empty and the state DISCONNECTED; as a total function it throws
nothing when nothing is active. -/
theorem C9_stop_idempotent (s : AppState) :
    stopConversation (stopConversation s) = stopConversation s
    ∧ (stopConversation s).session = none
    ∧ (stopConversation s).micStream = none
    ∧ (stopConversation s).activeSources = []
    ∧ (stopConversation s).connectionState = ConnectionState.DISCONNECTED
    ∧ (stopConversation s).isListening = false := by
  refine ⟨?_, rfl, rfl, rfl, rfl, rfl⟩
  simp [stopConversation]

/-- A state whose connectionState is CONNECTED while the session handle is
null, as in the window between onopen and the resolution of the session
promise (App.tsx lines 133-135 versus 214). -/
def connectedNoSession : AppState := { testState with session := none }

/-- C10 counterexample: sendTextMessage in a CONNECTED state whose session
handle is null does nothing — no send, no transcript entry — refuting the
claim that Connected alone suffices for the send-and-append behaviour. -/
theorem C10_counterexample :
    connectedNoSession.connectionState = ConnectionState.CONNECTED
    ∧ sendTextMessage 0 ['h', 'i'] connectedNoSession = connectedNoSession
    ∧ (sendTextMessage 0 ['h', 'i'] connectedNoSession).transcriptions = []
    ∧ (sendTextMessage 0 ['h', 'i'] connectedNoSession).sentMessages = [] := by
  refine ⟨rfl, ?_, ?_, ?_⟩ <;> simp [sendTextMessage, connectedNoSession, testState]

/-- C10 (amended): sendTextMessage outside the CONNECTED state, or with a
null session handle, is a no-op (no send recorded, no entry appended); in
the CONNECTED state with a live session handle it records exactly one send
and appends exactly one user entry with the given text. -/
theorem C10_send_text (now : ℚ) (msgText : List Char) (s : AppState) :
    (s.connectionState ≠ ConnectionState.CONNECTED → sendTextMessage now msgText s = s)
    ∧ (s.session = none → sendTextMessage now msgText s = s)
    ∧ (s.session = some () → s.connectionState = ConnectionState.CONNECTED →
        (sendTextMessage now msgText s).transcriptions
            = s.transcriptions ++ [⟨Role.user, msgText, now⟩]
        ∧ (sendTextMessage now msgText s).sentMessages = s.sentMessages ++ [msgText]) := by
  refine ⟨?_, ?_, ?_⟩
  · intro h
    simp [sendTextMessage, h]
  · intro h
    simp [sendTextMessage, h]
  · intro h1 h2
    simp [sendTextMessage, h1, h2]

/-- C10 witness: the amended claim evaluated in the connected testState and
on the text hi. -/
theorem C10_send_text_witness :
    testState.session = some ()
    ∧ testState.connectionState = ConnectionState.CONNECTED
    ∧ ((sendTextMessage 0 ['h', 'i'] testState).transcriptions
          = testState.transcriptions ++ [⟨Role.user, ['h', 'i'], 0⟩]
      ∧ (sendTextMessage 0 ['h', 'i'] testState).sentMessages
          = testState.sentMessages ++ [['h', 'i']]) :=
  ⟨rfl, rfl, (C10_send_text 0 ['h', 'i'] testState).2.2 rfl rfl⟩
